import Mathlib

/-!
Verification development for `bevy_simple_prefs`, a Bevy plugin that persists a
set of preference `Resource`s to a single RON file.

The development shallowly embeds the two source files:

* `src/bevy_simple_prefs/src/lib.rs` — the `serialize` / `deserialize` codec
  (Bevy reflection + RON), `PrefsPlugin::build`, `handle_tasks`,
  `PrefsStatus`, `PrefsSettings`, `load_str` / `save_str`;
* `src/bevy_simple_prefs_derive/src/lib.rs` — the code generated by
  `#[derive(Prefs)]` for a concrete preference struct: `save`, `load`, `init`.

Following the repository's own example (`examples/prefs.rs`) and the spec's
scenario, the concrete preference set used throughout is

```rust
struct ExamplePrefs { volume: Volume, difficulty: Difficulty }
struct Volume(pub u32);            // Default: Volume(50)
enum Difficulty { Easy, Normal, Hard }  // Default: Normal
```

The textual layer (RON syntax as produced by `ron::ser::to_string_pretty` and
consumed by `ron::Deserializer` driven by Bevy's reflect (de)serializers) is
embedded as executable char-list functions.  Machine integers (`u32`) are
modelled as `Nat`; no arithmetic in the claims overflows.  Code that can panic
(`.unwrap()`) is modelled with an explicit `panicked` outcome constructor.
Loops of the external RON parser are embedded with explicit fuel, always
called with fuel strictly larger than the input length, which the loops never
exhaust because every iteration consumes at least one character.
-/

/-! ### Data model: the example preference set

`Difficulty` and the payload of `Volume` from `examples/prefs.rs`; `Volume` is
a one-field tuple struct around `u32`, modelled as a bare `Nat` field. -/

/-- Models `enum Difficulty { Easy, Normal, Hard }` from `examples/prefs.rs`. -/
inductive Difficulty where
  | easy
  | normal
  | hard
deriving DecidableEq

/-- Models `struct ExamplePrefs { volume: Volume, difficulty: Difficulty }`.
`volume` holds the `u32` payload of the `Volume` newtype. -/
structure ExamplePrefs where
  volume : Nat
  difficulty : Difficulty
deriving DecidableEq

/-- Models `ExamplePrefs::default()`: `Volume(50)`, `Difficulty::Normal`
(the derived `Default` uses each field's `Default` impl, see
`examples/prefs.rs`). -/
def examplePrefsDefault : ExamplePrefs := ⟨50, .normal⟩

/-! ### Character classes used by the RON grammar -/

/-- RON whitespace characters (ASCII subset actually produced/consumed here). -/
def isWsChar (c : Char) : Bool :=
  c == ' ' || c == '\t' || c == '\n' || c == '\r'

/-- ASCII decimal digit. -/
def isDigitChar (c : Char) : Bool :=
  c.isDigit

/-- First character of a RON identifier. -/
def isIdentStart (c : Char) : Bool :=
  c.isAlpha || c == '_'

/-- Subsequent character of a RON identifier. -/
def isIdentChar (c : Char) : Bool :=
  c.isAlphanum || c == '_'

/-! ### Decimal rendering and parsing of unsigned integers

Models `serde`/`ron` printing a `u32` in decimal and parsing it back. -/

/-- The ASCII character of one decimal digit. -/
def digitChar : Nat → Char
  | 0 => '0'
  | 1 => '1'
  | 2 => '2'
  | 3 => '3'
  | 4 => '4'
  | 5 => '5'
  | 6 => '6'
  | 7 => '7'
  | 8 => '8'
  | 9 => '9'
  | _ => '?'

/-- Numeric value of one ASCII digit character. -/
def charVal (c : Char) : Nat := c.toNat - 48

/-- Fueled worker for `natRepr`; emits the decimal digits of `n`, most
significant first.  Fuel at least `n` (for `n ≥ 1`) never runs out because
`n / 10 < n`. -/
def natReprAux : Nat → Nat → List Char
  | 0, _ => []
  | fuel + 1, n =>
    if n = 0 then [] else natReprAux fuel (n / 10) ++ [digitChar (n % 10)]

/-- Decimal rendering of a `Nat`, most significant digit first: models the
decimal output of serializing a `u32`. -/
def natRepr (n : Nat) : List Char :=
  if n = 0 then ['0'] else natReprAux n n

/-- Value of a most-significant-first digit-character list. -/
def digitsVal (l : List Char) : Nat :=
  l.foldl (fun a c => 10 * a + charVal c) 0

theorem natReprAux_eq_digits :
    ∀ fuel n, n ≤ fuel → natReprAux fuel n = ((Nat.digits 10 n).map digitChar).reverse := by
  intro fuel
  induction fuel with
  | zero =>
    intro n hn
    interval_cases n
    simp [natReprAux]
  | succ f ih =>
    intro n hn
    by_cases h0 : n = 0
    · subst h0; simp [natReprAux]
    · rw [natReprAux, if_neg h0,
        ih (n / 10) (by
          have := Nat.div_lt_self (Nat.pos_of_ne_zero h0) (by norm_num : 1 < 10)
          omega),
        Nat.digits_def' (by norm_num : 1 < 10) (Nat.pos_of_ne_zero h0)]
      simp

/-- `natRepr` agrees with Mathlib's `Nat.digits` rendering. -/
theorem natRepr_eq_digits (n : Nat) :
    natRepr n = if n = 0 then ['0'] else ((Nat.digits 10 n).map digitChar).reverse := by
  unfold natRepr
  split
  · rfl
  · exact natReprAux_eq_digits n n (Nat.le_refl n)

theorem charVal_digitChar {d : Nat} (h : d < 10) : charVal (digitChar d) = d := by
  interval_cases d <;> rfl

theorem isDigitChar_digitChar {d : Nat} (h : d < 10) : isDigitChar (digitChar d) = true := by
  interval_cases d <;> rfl

theorem mem_natRepr_isDigit {n : Nat} {c : Char} (h : c ∈ natRepr n) :
    isDigitChar c = true := by
  rw [natRepr_eq_digits] at h
  split at h
  · simp at h
    subst h
    rfl
  · rw [List.mem_reverse, List.mem_map] at h
    obtain ⟨d, hd, rfl⟩ := h
    exact isDigitChar_digitChar (Nat.digits_lt_base (by norm_num) hd)

theorem natRepr_ne_nil (n : Nat) : natRepr n ≠ [] := by
  rw [natRepr_eq_digits]
  split
  · simp
  · simp only [ne_eq, List.reverse_eq_nil_iff, List.map_eq_nil_iff]
    exact Nat.digits_ne_nil_iff_ne_zero.mpr (by assumption)

theorem digitsVal_natRepr (n : Nat) : digitsVal (natRepr n) = n := by
  rw [natRepr_eq_digits]
  unfold digitsVal
  split
  · subst n; rfl
  · rw [List.foldl_reverse]
    have : ∀ l : List Nat, (∀ d ∈ l, d < 10) →
        (l.map digitChar).foldr (fun c a => 10 * a + charVal c) 0 =
          Nat.ofDigits 10 l := by
      intro l
      induction l with
      | nil => intro _; rfl
      | cons d t ih =>
        intro hall
        simp only [List.map_cons, List.foldr_cons, Nat.ofDigits_cons]
        rw [ih (fun x hx => hall x (List.mem_cons_of_mem _ hx)),
          charVal_digitChar (hall d (List.mem_cons_self d t))]
        ring
    rw [this _ (fun d hd => Nat.digits_lt_base (by norm_num) hd),
      Nat.ofDigits_digits]

/-! ### The RON deserializer front end

`bevy_simple_prefs::deserialize` (lib.rs:204-219) drives
`ron::Deserializer::from_str` (whose construction skips leading whitespace,
comments, and `#![enable(...)]` extension attributes, and can FAIL, e.g. on an
unclosed block comment) and Bevy's `TypedReflectDeserializer` (which parses
the struct body against the known schema into a `DynamicStruct` holding only
the fields present in the text).  The lib.rs code calls `.unwrap()` on
`from_str`, so a construction failure is a panic, modelled explicitly below.
-/

/-- Errors of the embedded RON front end.  Only the split between
construction-time errors (which lib.rs turns into panics via `.unwrap()`) and
deserialization-time errors (returned as `Err` and handled by the generated
`load`) matters for the claims; the constructors otherwise just name ron's
error conditions. `fuelExhausted` is an artifact of the fuel-based embedding
of ron's loops and is never returned when fuel exceeds the input length. -/
inductive RonError where
  | unclosedBlockComment
  | expectedComment
  | expectedAttribute
  | noSuchExtension
  | expectedStructLike
  | expectedNamedStructLike
  | expectedIdent
  | expectedColon
  | expectedInt
  | unknownField
  | unknownVariant
  | expectedCommaOrEnd
  | expectedTupleEnd
  | fuelExhausted
deriving DecidableEq

/-- Skips a (possibly nested) RON block comment body after an opening
`/*` has been consumed; `depth` is the current nesting level.  Returns the
remaining input after the matching `*/`, or `none` when the comment is
unterminated (ron: `Error::UnclosedBlockComment`). -/
def dropBlock : Nat → List Char → Option (List Char)
  | _, [] => none
  | depth, '*' :: '/' :: rest =>
      if depth = 1 then some rest else dropBlock (depth - 1) rest
  | depth, '/' :: '*' :: rest => dropBlock (depth + 1) rest
  | depth, _ :: rest => dropBlock depth rest

/-- Fueled worker for `skipWs`: models ron's `skip_ws`, which alternates
dropping whitespace and skipping `//` line comments / `/* */` block comments.
A lone `/` not starting a comment is an error, as in ron's `skip_comment`. -/
def skipWsF : Nat → List Char → Except RonError (List Char)
  | 0, _ => .error .fuelExhausted
  | fuel + 1, l =>
    match l.dropWhile isWsChar with
    | '/' :: '/' :: r => skipWsF fuel (r.dropWhile (fun c => c ≠ '\n'))
    | '/' :: '*' :: r =>
        match dropBlock 1 r with
        | some r2 => skipWsF fuel r2
        | none => .error .unclosedBlockComment
    | '/' :: _ => .error .expectedComment
    | s => .ok s

/-- Models ron's `skip_ws`.  Each loop iteration consumes at least the two
characters opening a comment, so the fuel is never exhausted. -/
def skipWs (l : List Char) : Except RonError (List Char) :=
  skipWsF (Nat.succ l.length) l

/-- Consumes one expected character or fails with the given error. -/
def expectChar (c : Char) (e : RonError) : List Char → Except RonError (List Char)
  | c' :: rest => if c' = c then .ok rest else .error e
  | [] => .error e

/-- Takes the identifier at the head of the input (possibly empty). -/
def takeIdent (s : List Char) : List Char × List Char :=
  (s.takeWhile isIdentChar, s.dropWhile isIdentChar)

/-- The extension names ron recognises inside `#![enable(...)]`. -/
def knownExtension (id : List Char) : Bool :=
  id = "unwrap_newtypes".data || id = "implicit_some".data ||
    id = "unwrap_variant_newtypes".data

/-- Fueled comma-separated extension-name list inside `#![enable( ... )]`;
an unknown name is ron's `NoSuchExtension` error. -/
def parseExtIdentsF : Nat → List Char → Except RonError (List Char)
  | 0, _ => .error .fuelExhausted
  | fuel + 1, s => do
    let s1 ← skipWs s
    let (id, s2) := takeIdent s1
    if id = [] then .error .expectedIdent
    else if knownExtension id then do
      let s3 ← skipWs s2
      match s3 with
      | ',' :: r => parseExtIdentsF fuel r
      | ')' :: r => .ok r
      | _ => .error .expectedAttribute
    else .error .noSuchExtension

/-- Fueled loop over leading `#![enable(...)]` attributes, as parsed by
`ron::Deserializer::from_str` at construction time. -/
def parseExtsF : Nat → List Char → Except RonError (List Char)
  | 0, _ => .error .fuelExhausted
  | fuel + 1, s =>
    match s with
    | '#' :: r => do
      let r1 ← expectChar '!' .expectedAttribute r
      let r2 ← expectChar '[' .expectedAttribute r1
      let r3 ← skipWs r2
      let (id, r4) := takeIdent r3
      if id = "enable".data then do
        let r5 ← skipWs r4
        let r6 ← expectChar '(' .expectedAttribute r5
        let r7 ← parseExtIdentsF (Nat.succ r6.length) r6
        let r8 ← skipWs r7
        let r9 ← expectChar ']' .expectedAttribute r8
        let r10 ← skipWs r9
        parseExtsF fuel r10
      else .error .expectedAttribute
    | _ => .ok s

/-- Models `ron::Deserializer::from_str` (called at lib.rs:211): construction
skips leading whitespace/comments and parses extension attributes.  The
`Result` this returns is `.unwrap()`ed by `deserialize`, so an `error` here
is a panic of the load path. -/
def ronFromStr (s : List Char) : Except RonError (List Char) := do
  let s1 ← skipWs s
  parseExtsF (Nat.succ s1.length) s1

/-- Parses the decimal literal of an unsigned integer, as ron's unsigned
integer parsing does for the plain-decimal case (the only form the codec
ever emits; `0x`/`0b`/`_` forms are not exercised by any claim). -/
def parseUInt (s : List Char) : Except RonError (Nat × List Char) :=
  let ds := s.takeWhile isDigitChar
  if ds = [] then .error .expectedInt
  else .ok (digitsVal ds, s.dropWhile isDigitChar)

/-- Models ron's `consume_struct_name`: an optional leading identifier must,
when present, match the struct's name. -/
def consumeStructName (name : List Char) (s : List Char) :
    Except RonError (List Char) :=
  match s with
  | [] => .ok []
  | c :: _ =>
    if isIdentStart c then
      let (id, rest) := takeIdent s
      if id = name then skipWs rest else .error .expectedNamedStructLike
    else .ok s

/-- Parses the value of the `volume` field: the `Volume(u32)` one-field tuple
struct, rendered `(n)`.  Models ron's `deserialize_tuple_struct` driven by
Bevy's tuple-struct visitor. -/
def parseVolumeVal (s : List Char) : Except RonError (Nat × List Char) := do
  let s1 ← skipWs s
  let s2 ← consumeStructName "Volume".data s1
  let s3 ← expectChar '(' .expectedStructLike s2
  let s4 ← skipWs s3
  let (n, s5) ← parseUInt s4
  let s6 ← skipWs s5
  match s6 with
  | ')' :: r => .ok (n, r)
  | ',' :: r => do
    let r1 ← skipWs r
    let r2 ← expectChar ')' .expectedTupleEnd r1
    .ok (n, r2)
  | _ => .error .expectedTupleEnd

/-- Parses the value of the `difficulty` field: a unit enum variant
identifier.  Models ron's enum parsing driven by Bevy's enum visitor, which
rejects unknown variant names. -/
def parseDifficultyVal (s : List Char) : Except RonError (Difficulty × List Char) := do
  let s1 ← skipWs s
  let (id, rest) := takeIdent s1
  if id = "Easy".data then .ok (.easy, rest)
  else if id = "Normal".data then .ok (.normal, rest)
  else if id = "Hard".data then .ok (.hard, rest)
  else if id = [] then .error .expectedIdent
  else .error .unknownVariant

/-- The partially built `DynamicStruct`: which of the two declared fields the
record has provided so far, and their values. -/
structure DynamicFields where
  volume : Option Nat
  difficulty : Option Difficulty
deriving DecidableEq

/-- Parses one `name: value` entry of the struct body.  Bevy's struct visitor
looks each key up in the schema and rejects unknown field names; a parsed
value is inserted into the `DynamicStruct` (a repeated name overwrites). -/
def parseOneField (acc : DynamicFields) (s : List Char) :
    Except RonError (DynamicFields × List Char) :=
  let (name, r) := takeIdent s
  if name = [] then .error .expectedIdent
  else if name = "volume".data then do
    let r1 ← skipWs r
    let r2 ← expectChar ':' .expectedColon r1
    let (n, r3) ← parseVolumeVal r2
    .ok ({ acc with volume := some n }, r3)
  else if name = "difficulty".data then do
    let r1 ← skipWs r
    let r2 ← expectChar ':' .expectedColon r1
    let (d, r3) ← parseDifficultyVal r2
    .ok ({ acc with difficulty := some d }, r3)
  else .error .unknownField

/-- Fueled loop over the comma-separated entries of the struct body, up to the
closing `)`.  Models ron's comma-separated map access (which permits a
trailing comma) feeding Bevy's struct visitor.  Each iteration consumes at
least one character, so fuel larger than the input length never runs out. -/
def parseFieldsF : Nat → DynamicFields → List Char → Except RonError (DynamicFields × List Char)
  | 0, _, _ => .error .fuelExhausted
  | fuel + 1, acc, s => do
    let s1 ← skipWs s
    match s1 with
    | ')' :: r => .ok (acc, r)
    | _ => do
      let (acc', s2) ← parseOneField acc s1
      let s3 ← skipWs s2
      match s3 with
      | ',' :: r => parseFieldsF fuel acc' r
      | ')' :: r => .ok (acc', r)
      | _ => .error .expectedCommaOrEnd

/-- Entry point for the struct-body loop. -/
def parseFields (acc : DynamicFields) (s : List Char) :
    Except RonError (DynamicFields × List Char) :=
  parseFieldsF (Nat.succ s.length) acc s

/-- Models `TypedReflectDeserializer::deserialize` for `ExamplePrefs` followed
by `val.apply(&*dynamic_struct)` on `T::default()` (lib.rs:213-218): parse the
bare struct into a `DynamicStruct` of the fields present in the text, then
overlay those fields onto the default value. -/
def parseExamplePrefs (s : List Char) : Except RonError ExamplePrefs := do
  let s1 ← skipWs s
  let s2 ← consumeStructName "ExamplePrefs".data s1
  let s3 ← expectChar '(' .expectedStructLike s2
  let (fields, _) ← parseFields ⟨none, none⟩ s3
  .ok ⟨fields.volume.getD examplePrefsDefault.volume,
       fields.difficulty.getD examplePrefsDefault.difficulty⟩

instance : DecidableEq (Except RonError ExamplePrefs) := fun a b =>
  match a, b with
  | .ok x, .ok y => decidable_of_iff (x = y) (by simp)
  | .error x, .error y => decidable_of_iff (x = y) (by simp)
  | .ok _, .error _ => isFalse (by simp)
  | .error _, .ok _ => isFalse (by simp)

/-- Outcome of `bevy_simple_prefs::deserialize::<ExamplePrefs>`: either the
process panicked (the `.unwrap()` of `ron::Deserializer::from_str` at
lib.rs:211 observed an error) or the function returned its `Result`. -/
inductive DeserializeOutcome where
  | panicked (e : RonError)
  | result (r : Except RonError ExamplePrefs)
deriving DecidableEq

/-- Models `deserialize::<ExamplePrefs>` (lib.rs:204-219). -/
def deserialize (s : String) : DeserializeOutcome :=
  match ronFromStr s.data with
  | .error e => .panicked e
  | .ok s1 => .result (parseExamplePrefs s1)

/-! ### The serializers and the load-value computation -/

/-- RON identifier of a `Difficulty` unit variant. -/
def diffChars : Difficulty → List Char
  | .easy => "Easy".data
  | .normal => "Normal".data
  | .hard => "Hard".data

/-- Character-level output of `bevy_simple_prefs::serialize` (lib.rs:222-229):
`TypedReflectSerializer` renders the bare struct, and `to_string_pretty` with
`PrettyConfig::default()` produces 4-space indentation, one field per line,
trailing commas, and tuple-struct members on one line. -/
def serializeChars (p : ExamplePrefs) : List Char :=
  "(\n    volume: (".data ++ natRepr p.volume ++ "),\n    difficulty: ".data
    ++ diffChars p.difficulty ++ ",\n)".data

/-- Models `bevy_simple_prefs::serialize::<ExamplePrefs>` (lib.rs:222-229).
For the field types used here serialization cannot fail, so the `Ok` payload
is returned directly. -/
def serialize (p : ExamplePrefs) : String := ⟨serializeChars p⟩

/-- Type path under which the untyped `ReflectSerializer` keys the record;
the exact crate prefix is irrelevant to every theorem below. -/
def examplePrefsTypePath : List Char := "prefs::ExamplePrefs".data

/-- Character-level record written by the generated `save` task
(bevy_simple_prefs_derive lib.rs:90-100): it uses the untyped
`ReflectSerializer`, whose output wraps the value in a map keyed by the full
type path. -/
def saveSerializeChars (p : ExamplePrefs) : List Char :=
  "\x7b\n    \"".data ++ examplePrefsTypePath
    ++ "\": (\n        volume: (".data ++ natRepr p.volume
    ++ "),\n        difficulty: ".data ++ diffChars p.difficulty
    ++ ",\n    ),\n\x7d".data

/-- The record text the save pipeline persists for a snapshot `p`. -/
def saveSerialize (p : ExamplePrefs) : String := ⟨saveSerializeChars p⟩

/-- Outcome of the value computation inside the generated `load` task. -/
inductive LoadOutcome where
  | panicked (e : RonError)
  | ok (v : ExamplePrefs)
deriving DecidableEq

/-- Models the closure in the generated `load`
(bevy_simple_prefs_derive lib.rs:117-129): a record absent from storage gives
`ExamplePrefs::default()`; a record that fails to deserialize is logged and
also gives the default; a panic inside `deserialize` propagates out of the
task. -/
def loadCompute : Option String → LoadOutcome
  | none => .ok examplePrefsDefault
  | some s =>
    match deserialize s with
    | .panicked e => .panicked e
    | .result (.ok v) => .ok v
    | .result (.error _) => .ok examplePrefsDefault

/-! ### Symbolic evaluation of the parser on canonical record texts

The canonical texts the codec produces are concrete except for the decimal
digits of `volume` and the variant name of `difficulty`.  Evaluation through
concrete segments is definitional (`rfl`); the two symbolic splices are
handled by the lemmas below. -/

theorem except_bind_ok {ε α β : Type} (a : α) (f : α → Except ε β) :
    (Except.ok a >>= f : Except ε β) = f a := rfl

theorem takeWhile_append_of_forall {p : Char → Bool} {l : List Char}
    (r : List Char) (h : ∀ c ∈ l, p c = true) :
    (l ++ r).takeWhile p = l ++ r.takeWhile p := by
  induction l with
  | nil => simp
  | cons a t ih =>
    have ha := h a (List.mem_cons_self a t)
    have ht := ih (fun c hc => h c (List.mem_cons_of_mem a hc))
    simp [List.takeWhile_cons, ha, ht]

theorem dropWhile_append_of_forall {p : Char → Bool} {l : List Char}
    (r : List Char) (h : ∀ c ∈ l, p c = true) :
    (l ++ r).dropWhile p = r.dropWhile p := by
  induction l with
  | nil => simp
  | cons a t ih =>
    have ha := h a (List.mem_cons_self a t)
    have ht := ih (fun c hc => h c (List.mem_cons_of_mem a hc))
    simp [List.dropWhile_cons, ha, ht]

/-- Every character of `natRepr n` is one of the ten digit characters. -/
theorem mem_natRepr_cases {n : Nat} {c : Char} (h : c ∈ natRepr n) :
    c ∈ ['0', '1', '2', '3', '4', '5', '6', '7', '8', '9'] := by
  rw [natRepr_eq_digits] at h
  split at h
  · simp at h
    subst h
    simp
  · rw [List.mem_reverse, List.mem_map] at h
    obtain ⟨d, hd, rfl⟩ := h
    have hlt := Nat.digits_lt_base (by norm_num) hd
    interval_cases d <;> simp [digitChar]

/-- `skipWs` is the identity on input starting with a decimal rendering. -/
theorem skipWs_natRepr (n : Nat) (r : List Char) :
    skipWs (natRepr n ++ r) = .ok (natRepr n ++ r) := by
  rcases h : natRepr n with _ | ⟨c, t0⟩
  · exact absurd h (natRepr_ne_nil n)
  · have hmem : c ∈ natRepr n := by rw [h]; exact List.mem_cons_self _ _
    have hc10 := mem_natRepr_cases hmem
    rw [List.cons_append]
    fin_cases hc10 <;> rfl

/-- Parsing the decimal rendering of `n` followed by a closing paren. -/
theorem parseUInt_natRepr (n : Nat) (t : List Char) :
    parseUInt (natRepr n ++ (')' :: t)) = .ok (n, ')' :: t) := by
  unfold parseUInt
  rw [takeWhile_append_of_forall _ (fun c hc => mem_natRepr_isDigit hc),
    dropWhile_append_of_forall _ (fun c hc => mem_natRepr_isDigit hc),
    show ((')' :: t).takeWhile isDigitChar) = [] from rfl,
    show ((')' :: t).dropWhile isDigitChar) = ')' :: t from rfl,
    List.append_nil]
  rw [if_neg (natRepr_ne_nil n), digitsVal_natRepr]

/-- Evaluation of the `Volume` tuple-struct parser on the canonical
rendering `(n)` (preceded by the space of `: ` and followed by `,`). -/
theorem parseVolumeVal_eval (n : Nat) (t : List Char) :
    parseVolumeVal (' ' :: ('(' :: (natRepr n ++ (')' :: t)))) = .ok (n, t) := by
  unfold parseVolumeVal
  rw [show skipWs (' ' :: ('(' :: (natRepr n ++ (')' :: t))))
      = Except.ok ('(' :: (natRepr n ++ (')' :: t))) from rfl]
  simp only [except_bind_ok]
  rw [show consumeStructName "Volume".data ('(' :: (natRepr n ++ (')' :: t)))
      = Except.ok ('(' :: (natRepr n ++ (')' :: t))) from rfl]
  simp only [except_bind_ok]
  rw [show expectChar '(' RonError.expectedStructLike ('(' :: (natRepr n ++ (')' :: t)))
      = Except.ok (natRepr n ++ (')' :: t)) from rfl]
  simp only [except_bind_ok]
  rw [skipWs_natRepr]
  simp only [except_bind_ok]
  rw [parseUInt_natRepr]
  simp only [except_bind_ok]
  rfl

/-- Evaluation of the `Difficulty` enum parser on a canonical variant name. -/
theorem parseDifficultyVal_eval (d : Difficulty) (t : List Char) :
    parseDifficultyVal (' ' :: (diffChars d ++ (',' :: t))) = .ok (d, ',' :: t) := by
  cases d <;> rfl

/-! ### Canonical record texts as lists of field entries -/

/-- One `name: value` entry of a canonical record. -/
inductive FieldEntry where
  | volume (n : Nat)
  | difficulty (d : Difficulty)

/-- Canonical rendering of one entry, as the pretty printer produces it:
4-space indentation, `name: value`, trailing comma, newline. -/
def entryChars : FieldEntry → List Char
  | .volume n => "    volume: (".data ++ natRepr n ++ "),\n".data
  | .difficulty d => "    difficulty: ".data ++ diffChars d ++ ",\n".data

/-- Concatenation of the canonical entries. -/
def entriesChars (fs : List FieldEntry) : List Char :=
  (fs.map entryChars).flatten

/-- Inserting one parsed entry into the `DynamicStruct`. -/
def applyEntry (acc : DynamicFields) : FieldEntry → DynamicFields
  | .volume n => { acc with volume := some n }
  | .difficulty d => { acc with difficulty := some d }

/-- Inserting a list of parsed entries, left to right. -/
def applyEntries (acc : DynamicFields) (fs : List FieldEntry) : DynamicFields :=
  fs.foldl applyEntry acc

theorem entryChars_volume_assoc (n : Nat) (rest : List Char) :
    entryChars (.volume n) ++ rest
      = "    volume: (".data ++ (natRepr n ++ (')' :: (',' :: ('\n' :: rest)))) := by
  simp only [entryChars, List.append_assoc]
  rfl

/-- One iteration of the struct-body loop over a canonical `volume` entry. -/
theorem parseFieldsF_volume_step (fuel : Nat) (acc : DynamicFields) (n : Nat)
    (rest : List Char) :
    parseFieldsF (fuel + 1) acc ('\n' :: (entryChars (.volume n) ++ rest)) =
      parseFieldsF fuel { acc with volume := some n } ('\n' :: rest) := by
  rw [entryChars_volume_assoc]
  show ((parseVolumeVal (' ' :: ('(' :: (natRepr n ++ (')' :: (',' :: ('\n' :: rest)))))) >>=
      fun x =>
        match x with
        | (v, r3) => Except.ok ({ acc with volume := some v }, r3)) >>=
      fun y =>
        match y with
        | (acc', s2) =>
          skipWs s2 >>= fun s3 =>
            match s3 with
            | ',' :: r => parseFieldsF fuel acc' r
            | ')' :: r => Except.ok (acc', r)
            | _ => Except.error RonError.expectedCommaOrEnd)
    = parseFieldsF fuel { acc with volume := some n } ('\n' :: rest)
  rw [parseVolumeVal_eval]
  rfl

/-- One iteration of the struct-body loop over a canonical `difficulty`
entry; everything is concrete once the variant is fixed. -/
theorem parseFieldsF_difficulty_step (fuel : Nat) (acc : DynamicFields)
    (d : Difficulty) (rest : List Char) :
    parseFieldsF (fuel + 1) acc ('\n' :: (entryChars (.difficulty d) ++ rest)) =
      parseFieldsF fuel { acc with difficulty := some d } ('\n' :: rest) := by
  cases d <;> rfl

/-- The struct-body loop applied to a whole canonical entry list: every entry
is inserted into the `DynamicStruct` in order and the closing paren ends the
loop.  Fuel exceeding the number of entries suffices. -/
theorem parseFieldsF_entries :
    ∀ (fs : List FieldEntry) (fuel : Nat) (acc : DynamicFields),
      fs.length < fuel →
      parseFieldsF fuel acc ('\n' :: (entriesChars fs ++ [')'])) =
        .ok (applyEntries acc fs, []) := by
  intro fs
  induction fs with
  | nil =>
    intro fuel acc h
    obtain ⟨f, rfl⟩ : ∃ f, fuel = f + 1 := ⟨fuel - 1, by omega⟩
    rfl
  | cons e t ih =>
    intro fuel acc h
    obtain ⟨f, rfl⟩ : ∃ f, fuel = f + 1 := ⟨fuel - 1, by omega⟩
    rw [show entriesChars (e :: t) = entryChars e ++ entriesChars t from by
        simp [entriesChars], List.append_assoc]
    have hlen : t.length < f := by simp at h; omega
    cases e with
    | volume n =>
      rw [parseFieldsF_volume_step]
      exact ih f _ hlen
    | difficulty d =>
      rw [parseFieldsF_difficulty_step]
      exact ih f _ hlen

/-- Every canonical entry rendering starts with a space. -/
theorem entryChars_cons (e : FieldEntry) : ∃ t, entryChars e = ' ' :: t := by
  cases e <;> exact ⟨_, rfl⟩

/-- The rendered entries are at least as long as the entry list. -/
theorem length_entriesChars (fs : List FieldEntry) :
    fs.length ≤ (entriesChars fs).length := by
  induction fs with
  | nil => simp [entriesChars]
  | cons e t ih =>
    obtain ⟨u, hu⟩ := entryChars_cons e
    rw [show entriesChars (e :: t) = entryChars e ++ entriesChars t from by
        simp [entriesChars], List.length_append, hu]
    simp only [List.length_cons]
    omega

/-- The struct-body loop at its call site (fuel is one more than the input
length, which exceeds the entry count). -/
theorem parseFields_entries (fs : List FieldEntry) (acc : DynamicFields) :
    parseFields acc ('\n' :: (entriesChars fs ++ [')'])) =
      .ok (applyEntries acc fs, []) := by
  unfold parseFields
  apply parseFieldsF_entries
  have := length_entriesChars fs
  simp only [List.length_cons, List.length_append]
  omega

/-- The `serialize` output is the canonical record over both entries. -/
theorem serializeChars_shape (n : Nat) (d : Difficulty) :
    serializeChars ⟨n, d⟩ =
      '(' :: ('\n' :: (entriesChars [.volume n, .difficulty d] ++ [')'])) := by
  simp only [serializeChars, entriesChars, entryChars, List.map_cons, List.map_nil,
    List.flatten_cons, List.flatten_nil, List.append_nil, List.append_assoc]
  rfl

/-- A record text that opens with a bare struct: the whole `deserialize`
front end on `'(' :: body`. -/
theorem deserialize_record (fs : List FieldEntry) :
    deserialize ⟨'(' :: ('\n' :: (entriesChars fs ++ [')']))⟩ =
      .result (.ok ⟨(applyEntries ⟨none, none⟩ fs).volume.getD examplePrefsDefault.volume,
        (applyEntries ⟨none, none⟩ fs).difficulty.getD examplePrefsDefault.difficulty⟩) := by
  rw [show deserialize ⟨'(' :: ('\n' :: (entriesChars fs ++ [')']))⟩
      = DeserializeOutcome.result
          (parseExamplePrefs ('(' :: ('\n' :: (entriesChars fs ++ [')'])))) from rfl]
  rw [show parseExamplePrefs ('(' :: ('\n' :: (entriesChars fs ++ [')'])))
      = (parseFields ⟨none, none⟩ ('\n' :: (entriesChars fs ++ [')'])) >>=
          fun x =>
            match x with
            | (fields, _) =>
              Except.ok (⟨fields.volume.getD examplePrefsDefault.volume,
                fields.difficulty.getD examplePrefsDefault.difficulty⟩ : ExamplePrefs)) from rfl]
  rw [parseFields_entries]
  rfl

/-! ### The ECS world model

Models the Bevy world state relevant to one `PrefsPlugin::<ExamplePrefs>`:
the two per-field resources, `PrefsSettings`, `PrefsStatus`, the running load
task, and the save tasks spawned so far.  Bevy change detection is modelled by
per-resource `added`/`changed` ticks compared against the save system's
`last_run` tick (tick wraparound is irrelevant at the horizons of the claims
and is not modelled).  `World::insert_resource` on a resource that does not
exist yet sets both ticks to the current tick (`ComponentTicks::new`); on a
resource that already exists it goes through `ResourceData::insert` /
`Column::replace`, which updates ONLY the `changed` tick and leaves the
`added` tick at the first insertion.  Since the plugin's `init` installs
every field resource at build time, a load batch re-inserting the fields
marks them changed but not added. -/

/-- Change-detection ticks of one stored resource. -/
structure ResTicks where
  added : Nat
  changed : Nat
deriving DecidableEq

/-- One resource in the world: its value and its change-detection ticks. -/
structure StoredRes (α : Type) where
  value : α
  ticks : ResTicks
deriving DecidableEq

/-- Models `Res::is_changed`: the changed tick is newer than the observing
system's `last_run` tick. -/
def isChangedFlag (t : ResTicks) (lastRun : Nat) : Bool :=
  lastRun < t.changed

/-- Models `Res::is_added`: the added tick is newer than the observing
system's `last_run` tick. -/
def isAddedFlag (t : ResTicks) (lastRun : Nat) : Bool :=
  lastRun < t.added

/-- The world slice owned by one `PrefsPlugin::<ExamplePrefs>` instance.
`settings` carries only presence (its path/key payload is irrelevant to the
claims); `status` is the `loaded` flag of `PrefsStatus` when the resource is
present.  `pendingLoad` is the in-flight load task: remaining polls until
completion, and the value its command queue will insert.  `savedSnapshots`
records the snapshot handed to each spawned save task, newest first. -/
structure PrefsWorld where
  volume : Option (StoredRes Nat)
  difficulty : Option (StoredRes Difficulty)
  settings : Option Unit
  status : Option Bool
  curTick : Nat
  saveLastRun : Nat
  pendingLoad : Option (Nat × ExamplePrefs)
  savedSnapshots : List ExamplePrefs
deriving DecidableEq

/-- Result of running the generated `ExamplePrefs::save` once. -/
inductive SaveResult where
  | panicked
  | noop
  | spawned (snapshot : ExamplePrefs)
deriving DecidableEq

/-- Models the generated `ExamplePrefs::save`
(bevy_simple_prefs_derive lib.rs:69-102).  The field bindings
(`world.get_resource_ref::<T>().unwrap()`) run for every field before
anything else, so a missing field resource panics.  Then the early return
fires when every field satisfies `!is_changed() || is_added()`.  Only past
that check is `world.resource::<PrefsSettings<_>>()` dereferenced (panicking
when absent), and a single task is spawned owning a clone of every field. -/
def savePrefs (w : PrefsWorld) : SaveResult :=
  match w.volume, w.difficulty with
  | some vol, some diff =>
    if (!isChangedFlag vol.ticks w.saveLastRun || isAddedFlag vol.ticks w.saveLastRun)
        && (!isChangedFlag diff.ticks w.saveLastRun
          || isAddedFlag diff.ticks w.saveLastRun) then
      .noop
    else
      match w.settings with
      | none => .panicked
      | some _ => .spawned ⟨vol.value, diff.value⟩
  | _, _ => .panicked

/-- The save system as a world step: records the spawned snapshot, and (as
Bevy does for every system run) bumps the system's `last_run` tick.  `none`
models the panic. -/
def savePhase (w : PrefsWorld) : Option PrefsWorld :=
  match savePrefs w with
  | .panicked => none
  | .noop => some { w with saveLastRun := w.curTick }
  | .spawned snap =>
      some { w with savedSnapshots := snap :: w.savedSnapshots,
                    saveLastRun := w.curTick }

/-- Models `World::insert_resource` at the current tick: a fresh resource
gets both ticks set to now (`ComponentTicks::new`); an existing resource is
replaced in place, updating only its `changed` tick and keeping its original
`added` tick (`Column::replace`). -/
def insertResource {α : Type} (v : α) (tick : Nat) :
    Option (StoredRes α) → Option (StoredRes α)
  | none => some ⟨v, ⟨tick, tick⟩⟩
  | some r => some ⟨v, ⟨r.ticks.added, tick⟩⟩

/-- Models the command queue pushed by the load task
(bevy_simple_prefs_derive lib.rs:131-136): one `world.insert_resource` per
field, then `PrefsStatus.loaded = true`, then the task entity is despawned
(the task handle is dropped, so the batch can never be applied twice).
Writing `loaded` goes through `world.resource_mut`, which requires the status
resource the plugin installed; the (unreachable) absent case is left
untouched here. -/
def applyLoadBatch (v : ExamplePrefs) (w : PrefsWorld) : PrefsWorld :=
  { w with
    volume := insertResource v.volume w.curTick w.volume,
    difficulty := insertResource v.difficulty w.curTick w.difficulty,
    status := w.status.map (fun _ => true),
    pendingLoad := none }

/-- `insertResource` always leaves the resource present. -/
theorem insertResource_isSome {α : Type} (v : α) (tick : Nat)
    (r : Option (StoredRes α)) : (insertResource v tick r).isSome = true := by
  cases r <;> rfl

/-- The value stored by `insertResource` is the inserted one. -/
theorem insertResource_value {α : Type} (v : α) (tick : Nat)
    (r : Option (StoredRes α)) :
    (insertResource v tick r).map StoredRes.value = some v := by
  cases r <;> rfl

/-- Models `handle_tasks` (lib.rs:141-148) plus the command application that
Bevy inserts between the chained `(handle_tasks, save)` systems: poll the
load task once; when it completes, its command queue is applied before `save`
runs in the same tick. -/
def handleTasks (w : PrefsWorld) : PrefsWorld :=
  match w.pendingLoad with
  | some (0, v) => applyLoadBatch v w
  | some (d + 1, v) => { w with pendingLoad := some (d, v) }
  | none => w

/-- Host-side mutations during one tick: an optional new value per field. -/
structure Edits where
  volume : Option Nat
  difficulty : Option Difficulty

/-- A host mutation through `ResMut::deref_mut`: sets the value and the
`changed` tick, leaving the `added` tick alone; absent resources are left
untouched (a host system with `ResMut<T>` could not run without `T`). -/
def applyEdit {α : Type} (e : Option α) (tick : Nat) :
    Option (StoredRes α) → Option (StoredRes α)
  | none => none
  | some r =>
    match e with
    | none => some r
    | some x => some ⟨x, ⟨r.ticks.added, tick⟩⟩

/-- All host edits of one tick. -/
def editWorld (e : Edits) (w : PrefsWorld) : PrefsWorld :=
  { w with
    volume := applyEdit e.volume w.curTick w.volume,
    difficulty := applyEdit e.difficulty w.curTick w.difficulty }

/-- One `Update` tick: host edits happen somewhere in the frame before the
plugin's chained `(handle_tasks, save)` pair runs
(`PrefsPlugin::build`, lib.rs:135-137); then the tick counter advances.
`none` models a panic inside `save`. -/
def tickWorld (e : Edits) (w : PrefsWorld) : Option PrefsWorld :=
  (savePhase (handleTasks (editWorld e w))).map
    (fun w' => { w' with curTick := w'.curTick + 1 })

/-- The world right after `PrefsPlugin::build` and the `Startup` run of the
generated `load` (lib.rs:124-139): settings installed, `PrefsStatus`
defaulted to `loaded = false`, every field resource initialized to its
default, and one load task in flight that will complete after `delay` polls
carrying value `v`.  Resources inserted during startup carry tick 1, so on
the save system's first run (`last_run = 0`) every field reports added, as in
Bevy. -/
def buildWorld (delay : Nat) (v : ExamplePrefs) : PrefsWorld :=
  { volume := some ⟨examplePrefsDefault.volume, ⟨1, 1⟩⟩,
    difficulty := some ⟨examplePrefsDefault.difficulty, ⟨1, 1⟩⟩,
    settings := some (),
    status := some false,
    curTick := 1,
    saveLastRun := 0,
    pendingLoad := some (delay, v),
    savedSnapshots := [] }

/-- Running the app for `n` ticks against an arbitrary host edit stream. -/
def runWorld (es : Nat → Edits) (delay : Nat) (v : ExamplePrefs) : Nat → Option PrefsWorld
  | 0 => some (buildWorld delay v)
  | n + 1 => (runWorld es delay v n).bind (tickWorld (es n))


/-- On a world holding all the resources the plugin installs, the save system
never panics, and it touches nothing but its own `last_run` tick and the
spawned-task list. -/
theorem savePhase_some {w : PrefsWorld} (hv : w.volume.isSome = true)
    (hd : w.difficulty.isSome = true) (hs : w.settings.isSome = true) :
    ∃ w', savePhase w = some w' ∧ w'.volume = w.volume ∧ w'.difficulty = w.difficulty ∧
      w'.settings = w.settings ∧ w'.status = w.status ∧
      w'.pendingLoad = w.pendingLoad ∧ w'.curTick = w.curTick ∧
      w'.saveLastRun = w.curTick := by
  obtain ⟨vol, hvol⟩ := Option.isSome_iff_exists.mp hv
  obtain ⟨diff, hdiff⟩ := Option.isSome_iff_exists.mp hd
  obtain ⟨st, hst⟩ := Option.isSome_iff_exists.mp hs
  unfold savePhase savePrefs
  rw [hvol, hdiff, hst]
  dsimp only
  by_cases hC : ((!isChangedFlag vol.ticks w.saveLastRun
        || isAddedFlag vol.ticks w.saveLastRun)
      && (!isChangedFlag diff.ticks w.saveLastRun
        || isAddedFlag diff.ticks w.saveLastRun)) = true
  · rw [if_pos hC]
    exact ⟨_, rfl, rfl, rfl, rfl, rfl, rfl, rfl, rfl⟩
  · rw [if_neg hC]
    exact ⟨_, rfl, rfl, rfl, rfl, rfl, rfl, rfl, rfl⟩

/-- `applyEdit` preserves resource presence. -/
theorem applyEdit_isSome {α : Type} (e : Option α) (tick : Nat)
    (r : Option (StoredRes α)) : (applyEdit e tick r).isSome = r.isSome := by
  cases r <;> cases e <;> rfl

/-- Trajectory of one plugin instance under an arbitrary host edit stream:
the run never panics, the plugin's resources stay present, the load task's
countdown decrements once per tick until its batch is applied at tick
`delay + 1`, and the `PrefsStatus.loaded` flag is `false` before that tick
and `true` from it on. -/
theorem runWorld_spec (es : Nat → Edits) (delay : Nat) (v : ExamplePrefs) :
    ∀ n, ∃ w, runWorld es delay v n = some w ∧
      w.volume.isSome = true ∧ w.difficulty.isSome = true ∧
      w.settings = some () ∧
      w.status = some (decide (delay < n)) ∧
      w.pendingLoad = (if n ≤ delay then some (delay - n, v) else none) ∧
      w.curTick = n + 1 := by
  intro n
  induction n with
  | zero =>
    exact ⟨buildWorld delay v, rfl, rfl, rfl, rfl, by simp [buildWorld],
      by simp [buildWorld], rfl⟩
  | succ n ih =>
    obtain ⟨w, hrun, hv, hd, hs, hst, hp, hc⟩ := ih
    have hrun1 : runWorld es delay v (n + 1) = tickWorld (es n) w := by
      simp [runWorld, hrun]
    set w1 := editWorld (es n) w with hw1
    have hv1 : w1.volume.isSome = true := by
      simpa [hw1, editWorld, applyEdit_isSome] using hv
    have hd1 : w1.difficulty.isSome = true := by
      simpa [hw1, editWorld, applyEdit_isSome] using hd
    have hs1 : w1.settings = some () := hs
    have hst1 : w1.status = some (decide (delay < n)) := hst
    have hp1 : w1.pendingLoad = (if n ≤ delay then some (delay - n, v) else none) := hp
    have hc1 : w1.curTick = n + 1 := hc
    have main : ∀ w2, handleTasks w1 = w2 →
        w2.volume.isSome = true → w2.difficulty.isSome = true →
        w2.settings = some () →
        w2.status = some (decide (delay < n + 1)) →
        w2.pendingLoad = (if n + 1 ≤ delay then some (delay - (n + 1), v) else none) →
        w2.curTick = n + 1 →
        ∃ w, runWorld es delay v (n + 1) = some w ∧
          w.volume.isSome = true ∧ w.difficulty.isSome = true ∧
          w.settings = some () ∧
          w.status = some (decide (delay < n + 1)) ∧
          w.pendingLoad = (if n + 1 ≤ delay then some (delay - (n + 1), v) else none) ∧
          w.curTick = n + 1 + 1 := by
      intro w2 h2 i1 i2 i3 i4 i5 i6
      obtain ⟨w', hw', e1, e2, e3, e4, e5, e6, e7⟩ := savePhase_some i1 i2 (by simp [i3])
      refine ⟨{ w' with curTick := w'.curTick + 1 }, ?_, ?_, ?_, ?_, ?_, ?_, ?_⟩
      · rw [hrun1, tickWorld, ← hw1, h2, hw']
        rfl
      · show w'.volume.isSome = true
        rw [e1]; exact i1
      · show w'.difficulty.isSome = true
        rw [e2]; exact i2
      · show w'.settings = some ()
        rw [e3]; exact i3
      · show w'.status = some (decide (delay < n + 1))
        rw [e4]; exact i4
      · show w'.pendingLoad = (if n + 1 ≤ delay then some (delay - (n + 1), v) else none)
        rw [e5]; exact i5
      · show w'.curTick + 1 = n + 1 + 1
        rw [e6, i6]
    by_cases hle : n < delay
    · -- the load task stays pending: its countdown decrements
      have hk : delay - n = (delay - (n + 1)) + 1 := by omega
      have h2 : handleTasks w1 = { w1 with pendingLoad := some (delay - (n + 1), v) } := by
        unfold handleTasks
        rw [hp1, if_pos (by omega : n ≤ delay), hk]
      refine main _ h2 hv1 hd1 hs1 ?_ ?_ hc1
      · show w1.status = some (decide (delay < n + 1))
        rw [hst1]
        simp only [Option.some.injEq, decide_eq_decide]
        omega
      · show some (delay - (n + 1), v)
          = (if n + 1 ≤ delay then some (delay - (n + 1), v) else none)
        rw [if_pos (by omega : n + 1 ≤ delay)]
    · by_cases heq : n = delay
      · -- the load batch applies this tick
        subst heq
        have h2 : handleTasks w1 = applyLoadBatch v w1 := by
          unfold handleTasks
          rw [hp1, if_pos (Nat.le_refl n), Nat.sub_self]
        refine main _ h2 ?_ ?_ ?_ ?_ ?_ ?_
        · exact insertResource_isSome _ _ _
        · exact insertResource_isSome _ _ _
        · show w1.settings = some ()
          exact hs1
        · show (w1.status.map fun _ => true) = some (decide (n < n + 1))
          rw [hst1]
          simp
        · show (none : Option (Nat × ExamplePrefs))
            = (if n + 1 ≤ n then some (n - (n + 1), v) else none)
          rw [if_neg (by omega : ¬ n + 1 ≤ n)]
        · show w1.curTick = n + 1
          exact hc1
      · -- the batch has already been applied in an earlier tick
        have h2 : handleTasks w1 = w1 := by
          unfold handleTasks
          rw [hp1, if_neg (by omega : ¬ n ≤ delay)]
        refine main _ h2 hv1 hd1 hs1 ?_ ?_ hc1
        · rw [hst1]
          simp only [Option.some.injEq, decide_eq_decide]
          omega
        · rw [hp1, if_neg (by omega : ¬ n ≤ delay), if_neg (by omega : ¬ n + 1 ≤ delay)]

/-! ### Claim theorems -/

/-- Claim C1 (code-bug evidence).  The save pipeline serializes the snapshot
with the untyped `ReflectSerializer` (bevy_simple_prefs_derive lib.rs:94),
whose record wraps the struct in a map keyed by the type path — but the load
pipeline deserializes through `deserialize` (lib.rs:204-219), whose
`TypedReflectDeserializer` expects the bare struct and rejects the wrapped
record.  Saving volume=60, difficulty=Normal therefore produces a record
whose subsequent load falls back to the defaults (volume=50), NOT the saved
values, refuting the claimed save/load round trip. -/
theorem claim1_saved_record_fails_to_load :
    deserialize (saveSerialize ⟨60, .normal⟩) = .result (.error .expectedStructLike) ∧
    loadCompute (some (saveSerialize ⟨60, .normal⟩)) = .ok ⟨50, .normal⟩ ∧
    (⟨50, .normal⟩ : ExamplePrefs) ≠ ⟨60, .normal⟩ :=
  ⟨rfl, rfl, by decide⟩

/-- Claim C2 (code-bug evidence).  The claim (and the spec's debounce rule,
plus the lib.rs:135 comment that "`save` checks load status") require that
the tick on which a completed load's mutation batch is applied spawns no
save task.  The generated `save` implements the debounce only through
`is_added()` (bevy_simple_prefs_derive lib.rs:37-39) — but the load batch
RE-inserts field resources that `init` installed at build time, which in
Bevy updates only their `changed` tick, not `added`.  So whenever the load
completes after the save system's first run, every field reports
changed-and-not-added on the apply tick, the early return does not fire, and
`save` spawns a task.  Evidence: a load that completes on the second tick
(delay 1), with no host edits at all — the first tick spawns nothing, while
the apply tick flips `loaded` to true AND spawns one save task carrying the
just-loaded snapshot, contradicting the claim. -/
theorem claim2_save_spawned_on_load_apply_tick :
    ((runWorld (fun _ => ⟨none, none⟩) 1 ⟨60, .normal⟩ 1).map PrefsWorld.savedSnapshots
        = some []) ∧
    ((runWorld (fun _ => ⟨none, none⟩) 1 ⟨60, .normal⟩ 2).map PrefsWorld.savedSnapshots
        = some [⟨60, .normal⟩]) ∧
    ((runWorld (fun _ => ⟨none, none⟩) 1 ⟨60, .normal⟩ 2).map PrefsWorld.status
        = some (some true)) :=
  ⟨rfl, rfl, rfl⟩

/-- Claim C3 (code-bug evidence).  `deserialize` unwraps
`ron::Deserializer::from_str` (lib.rs:211), whose construction fails on
input that is not even scannable — e.g. the unclosed block comment `/*` —
so the load path panics on such a stored record instead of degrading to the
default value as the spec requires. -/
theorem claim3_load_panics_on_malformed_input :
    deserialize "/*" = .panicked .unclosedBlockComment ∧
    loadCompute (some "/*") = .panicked .unclosedBlockComment :=
  ⟨rfl, rfl⟩

/-- Claim C4: for every `ExamplePrefs` value, deserializing the text produced
by the public `serialize` function returns `Ok` of the same value. -/
theorem claim4_roundtrip (p : ExamplePrefs) :
    deserialize (serialize p) = .result (.ok p) := by
  obtain ⟨n, d⟩ := p
  show deserialize ⟨serializeChars ⟨n, d⟩⟩ = .result (.ok ⟨n, d⟩)
  rw [serializeChars_shape, deserialize_record]
  rfl

/-- A record text carrying exactly the given field entries. -/
def renderRecord (fs : List FieldEntry) : String :=
  ⟨'(' :: ('\n' :: (entriesChars fs ++ [')']))⟩

/-- The record's entries form a strict subset of the declared fields
(no duplicates, not all fields present). -/
def strictSubset (fs : List FieldEntry) : Prop :=
  fs = [] ∨ (∃ n, fs = [.volume n]) ∨ (∃ d, fs = [.difficulty d])

/-- Claim C5: a record text encoding only a strict subset of the declared
fields deserializes successfully; fields present in the text receive the
recorded values and absent fields their defaults (default-then-overlay,
lib.rs:216-218). -/
theorem claim5_subset_overlay (fs : List FieldEntry) (hsub : strictSubset fs) :
    deserialize (renderRecord fs) = .result (.ok
      ⟨(applyEntries ⟨none, none⟩ fs).volume.getD examplePrefsDefault.volume,
       (applyEntries ⟨none, none⟩ fs).difficulty.getD examplePrefsDefault.difficulty⟩) :=
  deserialize_record fs

/-- Closed instance for claim C5: a record holding only `difficulty: Hard`
loads as volume=50 (default), difficulty=Hard. -/
theorem claim5_witness :
    strictSubset [.difficulty .hard] ∧
      deserialize (renderRecord [.difficulty .hard]) = .result (.ok ⟨50, .hard⟩) :=
  ⟨Or.inr (Or.inr ⟨.hard, rfl⟩),
    claim5_subset_overlay [.difficulty .hard] (Or.inr (Or.inr ⟨.hard, rfl⟩))⟩

/-- Claim C6: an absent stored record makes the load compute the all-default
value (not an error, not a panic), and applying the load's command queue
installs the default in every field and sets `loaded = true`. -/
theorem claim6_absent_record_defaults :
    loadCompute none = .ok examplePrefsDefault ∧
    ∀ (w : PrefsWorld) (b : Bool), w.status = some b →
      ((applyLoadBatch examplePrefsDefault w).volume.map StoredRes.value)
          = some examplePrefsDefault.volume ∧
      ((applyLoadBatch examplePrefsDefault w).difficulty.map StoredRes.value)
          = some examplePrefsDefault.difficulty ∧
      (applyLoadBatch examplePrefsDefault w).status = some true := by
  refine ⟨rfl, fun w b hb =>
    ⟨insertResource_value _ _ _, insertResource_value _ _ _, ?_⟩⟩
  simp [applyLoadBatch, hb]

/-- Closed instance for claim C6 at the startup world. -/
theorem claim6_witness :
    loadCompute none = .ok examplePrefsDefault ∧
    (applyLoadBatch examplePrefsDefault (buildWorld 0 ⟨60, .normal⟩)).status = some true := by
  have h := claim6_absent_record_defaults
  exact ⟨h.1, (h.2 (buildWorld 0 ⟨60, .normal⟩) false rfl).2.2⟩

/-- Claim C7: on a tick in which no field's changed-since-last-run flag is
set, the generated `save` takes its early return: no task is spawned and the
only world effect is the bookkeeping bump of the system's own `last_run`
tick; fields, status, tasks, and snapshots are untouched. -/
theorem claim7_no_change_no_save (w : PrefsWorld) (vol : StoredRes Nat)
    (diff : StoredRes Difficulty)
    (hv : w.volume = some vol) (hd : w.difficulty = some diff)
    (h1 : isChangedFlag vol.ticks w.saveLastRun = false)
    (h2 : isChangedFlag diff.ticks w.saveLastRun = false) :
    savePrefs w = .noop ∧ savePhase w = some { w with saveLastRun := w.curTick } := by
  have hsp : savePrefs w = .noop := by
    unfold savePrefs
    rw [hv, hd]
    dsimp only
    simp [h1, h2]
  refine ⟨hsp, ?_⟩
  unfold savePhase
  rw [hsp]

/-- World for the closed claim-C7 instance: both fields present, last mutated
at tick 1, save system last ran at tick 4. -/
def unchangedWorld : PrefsWorld :=
  { volume := some ⟨50, ⟨1, 1⟩⟩, difficulty := some ⟨.normal, ⟨1, 1⟩⟩,
    settings := some (), status := some true, curTick := 5, saveLastRun := 4,
    pendingLoad := none, savedSnapshots := [] }

/-- Closed instance for claim C7. -/
theorem claim7_witness :
    savePrefs unchangedWorld = .noop ∧
    savePhase unchangedWorld = some { unchangedWorld with saveLastRun := 5 } :=
  claim7_no_change_no_save unchangedWorld ⟨50, ⟨1, 1⟩⟩ ⟨.normal, ⟨1, 1⟩⟩
    rfl rfl rfl rfl

/-- Claim C9: along every run — any load delay, any loaded value, any host
edit stream — the `PrefsStatus.loaded` flag starts `false` and equals
`delay < n` at every later state: it is written exactly once, from `false`
to `true`, on the tick the load task's command queue is applied (the only
operation in the model that writes it), and no save or host edit ever
touches it. -/
theorem claim9_status_flips_once (es : Nat → Edits) (delay : Nat) (v : ExamplePrefs) :
    (runWorld es delay v 0).map PrefsWorld.status = some (some false) ∧
    (∀ n, (runWorld es delay v n).map PrefsWorld.status
        = some (some (decide (delay < n)))) ∧
    (∀ n, (runWorld es delay v n).map PrefsWorld.pendingLoad
        = some (if n ≤ delay then some (delay - n, v) else none)) := by
  refine ⟨rfl, ?_, ?_⟩
  · intro n
    obtain ⟨w, hrun, _, _, _, hst, _, _⟩ := runWorld_spec es delay v n
    simp [hrun, hst]
  · intro n
    obtain ⟨w, hrun, _, _, _, _, hp, _⟩ := runWorld_spec es delay v n
    simp [hrun, hp]

